import Mathlib

/-!
Verification of the inspection-rule / runbook / node-lookup core of the
`ironic` repository excerpt, by a shallow embedding of the Python sources:

* `ironic/api/controllers/v1/runbook.py` (runbook create/patch, duplicate steps)
* `ironic/api/controllers/v1/inspection_rule.py` (path parsing, condition and
  action validation, lazily built schemas)
* `ironic/drivers/modules/inspect_utils.py` (node lookup, BMC address cache,
  port creation)
* `ironic/dhcp/kea.py` (retrying request loop)

External collaborators (the persistence layer, DNS resolution, the jsonpatch
and jsonschema libraries) are modelled as explicit parameters or as small
executable functions restricted to the behaviour the embedded code relies on;
each such modelling choice is recorded in the corresponding doc comment.
Python truthiness of optional strings and booleans is modelled by `strTruthy`
and `boolTruthy`; an absent / `None` value is `none`.
-/

/-- Truthiness of an optional Python string: `None` and `""` are falsy. -/
def strTruthy : Option String → Bool
  | some s => s ≠ ""
  | none => false

/-- Truthiness of an optional Python boolean: only `True` is truthy. -/
def boolTruthy : Option Bool → Bool
  | some b => b
  | none => false

/-! ## Runbooks: `ironic/api/controllers/v1/runbook.py` -/

/-- One runbook step, restricted to the `(interface, step)` key used by
`duplicate_steps` (runbook.py line 83); `args` and `order` play no role in the
claims. -/
structure RbStep where
  interface : String
  step : String
deriving DecidableEq

/-- The runbook request body / stored runbook, restricted to the fields the
claims are about (`RUNBOOK_SCHEMA`, runbook.py lines 43-60). `description`,
`extra` and `disable_ramdisk` are carried by the real dict but are never read
by the embedded logic. `public` is nullable in the schema, hence `Option`. -/
structure RunbookDict where
  uuid : Option String
  name : String
  steps : List RbStep
  public : Option Bool
  owner : Option String
deriving DecidableEq

/-- Errors raised by the runbook controller paths modelled here.
`invalidRunbook` carries the set of duplicate `(interface, step)` pairs that
the Python error message is built from (runbook.py lines 85-92); the message
itself joins them in unspecified set order, so the model keeps the collection.
`invalid` is `exception.Invalid` (owner policy, runbook.py line 281),
`patchError` is `exception.PatchError` (line 323), `badRequestSchema` stands
for a JSON-schema / allowed-fields rejection by `args.schema` /
`patch_validate_allowed_fields`. -/
inductive RunbookError where
  | invalidRunbook (duplicates : List (String × String))
  | invalid
  | patchError
  | badRequestSchema
deriving DecidableEq

/-- The `(interface, step)` key counted by `duplicate_steps`. -/
def stepKey (s : RbStep) : String × String := (s.interface, s.step)

/-- Number of occurrences of a step key in a key list (the `collections.Counter`
of runbook.py line 83). -/
def countKey (l : List (String × String)) (k : String × String) : Nat :=
  l.countP (fun x => x = k)

/-- The set of duplicated `(interface, step)` pairs of a runbook (runbook.py
lines 83-85): the keys whose count exceeds one, with set semantics. -/
def duplicatePairs (value : RunbookDict) : List (String × String) :=
  let keys := value.steps.map stepKey
  keys.dedup.filter (fun k => decide (1 < countKey keys k))

/-- Argument validator `duplicate_steps` (runbook.py lines 73-93): each
interface/step combination may be specified at most once; on violation raise
`InvalidRunbook` carrying every duplicated pair, otherwise return the value
unchanged. -/
def duplicate_steps (value : RunbookDict) : Except RunbookError RunbookDict :=
  if duplicatePairs value = [] then .ok value
  else .error (.invalidRunbook (duplicatePairs value))

/-- The part of `RUNBOOK_SCHEMA` (runbook.py lines 43-60) observable on the
modelled fields: `steps` is required with `minItems: 1`. Name pattern and
length limits concern fields outside the claims. -/
def runbookSchemaOk (d : RunbookDict) : Bool :=
  !d.steps.isEmpty

/-- `RUNBOOK_VALIDATOR` (runbook.py lines 96-100): JSON-schema check, then
`duplicate_steps`; the uuid-format check concerns no modelled behaviour. -/
def RUNBOOK_VALIDATOR (d : RunbookDict) : Except RunbookError RunbookDict :=
  if runbookSchemaOk d then duplicate_steps d else .error .badRequestSchema

/-- Request context facts read by `RunbooksController.post`:
`cdict.get('system_scope') != 'all'` and `cdict.get('project_id', False)`
(runbook.py lines 268-273). -/
structure ApiContext where
  systemScopeAll : Bool
  projectId : Option String
deriving DecidableEq

/-- `RunbooksController.post` (runbook.py lines 255-295) restricted to the
modelled fields: validate the body, then apply the ownership policy. A
project-scoped caller requesting an owner other than its own project is
rejected with `Invalid`; otherwise a project-scoped create overwrites `owner`
with the caller's project id. The returned dict is what
`objects.Runbook(context, **runbook).create()` persists; policy checks and
notifications are access control / telemetry and are not modelled. -/
def RunbooksController.post (ctx : ApiContext) (runbook : RunbookDict) :
    Except RunbookError RunbookDict := do
  let runbook ← RUNBOOK_VALIDATOR runbook
  if ctx.systemScopeAll then
    .ok runbook
  else
    let projectId := if strTruthy ctx.projectId then ctx.projectId else none
    let requestedOwner := runbook.owner
    if strTruthy requestedOwner ∧ requestedOwner ≠ projectId then
      .error RunbookError.invalid
    else
      .ok { runbook with owner := projectId }

/-- A JSON scalar, the value space of the modelled patch operations and of
operator parameters. -/
inductive PVal where
  | pstr (s : String)
  | pnum (n : Int)
  | pbool (b : Bool)
  | pnull
deriving DecidableEq

/-- JSON-patch operation kinds relevant to `get_patch_values` and
`apply_jsonpatch`. -/
inductive PatchOpKind where
  | add
  | replace
  | remove
deriving DecidableEq

/-- One JSON-patch operation. Only operations whose value is a scalar are
representable; the claims touch the scalar fields `/owner` and `/public`. For
`remove` the `value` component is ignored. -/
structure PatchOp where
  op : PatchOpKind
  path : String
  value : PVal
deriving DecidableEq

/-- `api_utils.get_patch_values(patch, path)` (collaborator of runbook.py
lines 315-316): the values of every `add`/`replace` operation on exactly the
given path, in patch order. -/
def get_patch_values (patch : List PatchOp) (path : String) : List PVal :=
  (patch.filter
    (fun p => decide (p.path = path ∧ (p.op = .add ∨ p.op = .replace)))).map PatchOp.value

/-- `PATCH_ALLOWED_FIELDS` (runbook.py lines 62-69). -/
def PATCH_ALLOWED_FIELDS : List String :=
  ["extra", "name", "steps", "description", "public", "owner"]

/-- First segment of a JSON-pointer path: the top-level field it addresses. -/
def patchPathField (path : String) : String :=
  ⟨(path.data.drop 1).takeWhile (fun c => c != '/')⟩

/-- `api_utils.patch_validate_allowed_fields` (collaborator of runbook.py line
309): every operation must target a field in `PATCH_ALLOWED_FIELDS`. -/
def patch_validate_allowed_fields (patch : List PatchOp) : Bool :=
  patch.all (fun p => PATCH_ALLOWED_FIELDS.contains (patchPathField p.path))

/-- One step of `api_utils.apply_jsonpatch` (collaborator of runbook.py line
330) on the modelled projection of the runbook dict: operations on `/owner`
and `/public` update those fields (`remove` deletes, modelled as the falsy
default the later reads observe); operations addressing unmodelled fields or
deeper paths do not change the modelled fields. -/
def applyPatchOp (d : RunbookDict) (p : PatchOp) : RunbookDict :=
  if p.path = "/owner" then
    match p.op, p.value with
    | .remove, _ => { d with owner := none }
    | _, .pstr s => { d with owner := some s }
    | _, _ => { d with owner := none }
  else if p.path = "/public" then
    match p.op, p.value with
    | .remove, _ => { d with public := none }
    | _, .pbool b => { d with public := some b }
    | _, _ => { d with public := none }
  else
    d

/-- `RunbooksController.patch` (runbook.py lines 301-351) on the modelled
fields: validate allowed fields; if the patch sets `owner` while `public` is
being patched or the stored runbook is already public, reject with
`PatchError`; if the patch touches `/public`, null out the owner before
applying; apply the patch; re-validate with `RUNBOOK_VALIDATOR`. The returned
dict is what `rpc_runbook.save()` persists. -/
def RunbooksController.patch (stored : RunbookDict) (patchDoc : List PatchOp) :
    Except RunbookError RunbookDict :=
  if !patch_validate_allowed_fields patchDoc then
    .error RunbookError.badRequestSchema
  else
    let runbook := stored
    let ownerVals := get_patch_values patchDoc "/owner"
    let publicVals := get_patch_values patchDoc "/public"
    if ownerVals ≠ [] ∧ (publicVals ≠ [] ∨ boolTruthy runbook.public) then
      .error RunbookError.patchError
    else
      let runbook := if publicVals ≠ [] then { runbook with owner := none } else runbook
      let runbook := patchDoc.foldl applyPatchOp runbook
      RUNBOOK_VALIDATOR runbook

/-! ## Inspection rules: `ironic/api/controllers/v1/inspection_rule.py` -/

/-- Character position of the first occurrence of `"://"` in a string, as
`str.index('://')` computes it (inspection_rule.py line 54); `none` when the
separator does not occur (the `ValueError` branch). -/
def findIdx3 : List Char → Option Nat
  | ':' :: '/' :: '/' :: _ => some 0
  | _ :: rest => (findIdx3 rest).map (· + 1)
  | [] => none

/-- Whether a field string contains the `"://"` scheme separator. -/
def containsSchemeSep (s : String) : Bool :=
  (findIdx3 s.data).isSome

/-- `_parse_path` (inspection_rule.py lines 43-61): split at the first
`"://"`; without a separator the scheme defaults to `data` and the path is the
whole string. -/
def _parse_path (path : String) : String × String :=
  match findIdx3 path.data with
  | none => ("data", path)
  | some i => (⟨path.data.take i⟩, ⟨path.data.drop (i + 3)⟩)

/-- One condition entry after JSON decoding: the reserved keys of the
conditions schema plus the remaining operator-specific keys (`params`,
inspection_rule.py lines 144, 164-165). Absent optional keys are `none`. -/
structure CondJson where
  op : String
  field : String
  multiple : Option String
  invert : Option Bool
  params : List (String × PVal)
deriving DecidableEq

/-- One action entry after JSON decoding (inspection_rule.py lines 194-196). -/
structure ActJson where
  action : String
  params : List (String × PVal)
deriving DecidableEq

/-- The observable content of the conditions JSON schema built at
inspection_rule.py lines 69-99: `minItems`, the `op` enum (condition plugin
names) and the `multiple` enum. -/
structure CondSchema where
  minItems : Nat
  opEnum : List String
  multipleEnum : List String
deriving DecidableEq

/-- The observable content of the actions JSON schema built at
inspection_rule.py lines 109-125: `minItems` and the `action` enum. -/
structure ActSchema where
  minItems : Nat
  actionEnum : List String
deriving DecidableEq

/-- The schema dict constructed inside `conditions_schema` (inspection_rule.py
lines 69-99): rules that always apply are allowed, so `minItems` is 0. -/
def buildConditionsSchema (conditionPlugins : List String) : CondSchema :=
  { minItems := 0, opEnum := conditionPlugins, multipleEnum := ["all", "any", "first"] }

/-- The schema dict constructed inside `actions_schema` (inspection_rule.py
lines 109-125): `minItems` is 1. -/
def buildActionsSchema (actionPlugins : List String) : ActSchema :=
  { minItems := 1, actionEnum := actionPlugins }

/-- The module-level globals `_CONDITIONS_SCHEMA` and `_ACTIONS_SCHEMA` named
by the `global` statements at inspection_rule.py lines 65 and 105. The module
body never assigns them, so at interpreter level each name starts *unbound*
(reading it raises `NameError`), not bound to `None`. `none` models the
unbound name, `some none` models a binding to `None`, `some (some s)` models
the built schema. -/
structure RuleModuleState where
  conditionsSchemaGlobal : Option (Option CondSchema)
  actionsSchemaGlobal : Option (Option ActSchema)
deriving DecidableEq

/-- The module state right after `import` of inspection_rule.py: both schema
globals are unbound. -/
def initialRuleModuleState : RuleModuleState := ⟨none, none⟩

/-- Errors surfaced by the validation helpers. `nameError` is a Python
`NameError` escaping uncaught (it is not a `jsonschema.ValidationError`, so
the `try` at inspection_rule.py lines 135-140 / 186-190 does not catch it);
`clientSideError` is the `ClientSideError` for a failed conditions schema
check, `invalidActionsSchema` the `exception.Invalid` for a failed actions
schema check, and the remaining constructors are the `exception.Invalid`
raises of the per-entry loops. -/
inductive RuleApiError where
  | nameError (globalName : String)
  | clientSideError
  | invalidActionsSchema
  | invalidScheme (scheme : String)
  | invalidPath (field : String) (msg : String)
  | invalidParams (name : String) (msg : String)
deriving DecidableEq

/-- `conditions_schema()` (inspection_rule.py lines 64-101): read the global
`_CONDITIONS_SCHEMA`; an unbound global raises `NameError`; `None` triggers
the lazy build from the condition plugin names; otherwise return the cached
schema. Returns the schema together with the updated module state. -/
def conditions_schema (conditionPlugins : List String) (st : RuleModuleState) :
    Except RuleApiError (CondSchema × RuleModuleState) :=
  match st.conditionsSchemaGlobal with
  | none => .error (.nameError "_CONDITIONS_SCHEMA")
  | some none =>
    let s := buildConditionsSchema conditionPlugins
    .ok (s, { st with conditionsSchemaGlobal := some (some s) })
  | some (some s) => .ok (s, st)

/-- `actions_schema()` (inspection_rule.py lines 104-127), analogous to
`conditions_schema`. -/
def actions_schema (actionPlugins : List String) (st : RuleModuleState) :
    Except RuleApiError (ActSchema × RuleModuleState) :=
  match st.actionsSchemaGlobal with
  | none => .error (.nameError "_ACTIONS_SCHEMA")
  | some none =>
    let s := buildActionsSchema actionPlugins
    .ok (s, { st with actionsSchemaGlobal := some (some s) })
  | some (some s) => .ok (s, st)

/-- `jsonschema.validate` (external library) specialised to the conditions
schema shape: array length at least `minItems`, each item an object whose `op`
is in the plugin enum and whose `multiple`, when present, is in the
multiplicity enum; `field` presence and the `invert` boolean are enforced by
the typed embedding of `CondJson`. -/
def jsonschemaValidateConditions (s : CondSchema) (cs : List CondJson) : Bool :=
  decide (s.minItems ≤ cs.length) &&
    cs.all (fun c =>
      s.opEnum.contains c.op &&
        (match c.multiple with
         | none => true
         | some m => s.multipleEnum.contains m))

/-- `jsonschema.validate` (external library) specialised to the actions schema
shape. -/
def jsonschemaValidateActions (s : ActSchema) (acts : List ActJson) : Bool :=
  decide (s.minItems ≤ acts.length) &&
    acts.all (fun a => s.actionEnum.contains a.action)

/-- Result of evaluating `jsonpath.parse(path)` at inspection_rule.py line
157. The module imports `jsonschema` but never imports `jsonpath` (see its
top block, lines 13-33), so evaluating the name raises
`NameError: name jsonpath is not defined`; the surrounding
`except Exception as exc` (line 158) catches it and its text becomes the
embedded parser message. The path expression itself is never parsed, so the
result does not depend on `path`; the `none` (success) branch is kept to
mirror the shape of the source. -/
def jsonpathParseResult (_path : String) : Option String :=
  some "name jsonpath is not defined"

/-- A validated condition tuple as appended at inspection_rule.py lines
173-177: `(field, op, multiple defaulting to any, invert defaulting to false,
params)`. -/
structure ValidatedCond where
  field : String
  op : String
  multiple : String
  invert : Bool
  params : List (String × PVal)
deriving DecidableEq

/-- Per-operator validation contracts: plugin name and params to an optional
`ValueError` message (external plugin managers, inspection_rule.py lines 142,
192). `conditionPlugins` / `actionPlugins` are the registry names the schemas
enumerate. -/
structure RuleEnv where
  conditionPlugins : List String
  actionPlugins : List String
  conditionValidate : String → List (String × PVal) → Option String
  actionValidate : String → List (String × PVal) → Option String

/-- Body of the per-condition loop of `_validate_conditions`
(inspection_rule.py lines 145-177): parse the field, reject an unsupported
scheme, parse the path as JSON path (see `jsonpathParseResult`), then run the
plugin parameter validation. -/
def validateCondEntry (env : RuleEnv) (cond : CondJson) :
    Except RuleApiError ValidatedCond :=
  let (scheme, path) := _parse_path cond.field
  if scheme ≠ "node" ∧ scheme ≠ "data" then
    .error (.invalidScheme scheme)
  else
    match jsonpathParseResult path with
    | some msg => .error (.invalidPath cond.field msg)
    | none =>
      match env.conditionValidate cond.op cond.params with
      | some msg => .error (.invalidParams cond.op msg)
      | none =>
        .ok ⟨cond.field, cond.op, cond.multiple.getD "any",
          cond.invert.getD false, cond.params⟩

/-- `_validate_conditions` (inspection_rule.py lines 130-178): evaluate
`conditions_schema()` (which may raise), run the jsonschema check, then the
per-entry loop in order, stopping at the first error. -/
def _validate_conditions (env : RuleEnv) (st : RuleModuleState)
    (conditionsJson : List CondJson) :
    Except RuleApiError (List ValidatedCond × RuleModuleState) := do
  let (schema, st) ← conditions_schema env.conditionPlugins st
  if !jsonschemaValidateConditions schema conditionsJson then
    .error RuleApiError.clientSideError
  else do
    let conds ← conditionsJson.mapM (validateCondEntry env)
    .ok (conds, st)

/-- Body of the per-action loop of `_validate_actions` (inspection_rule.py
lines 194-203). -/
def validateActEntry (env : RuleEnv) (act : ActJson) :
    Except RuleApiError (String × List (String × PVal)) :=
  match env.actionValidate act.action act.params with
  | some msg => .error (.invalidParams act.action msg)
  | none => .ok (act.action, act.params)

/-- `_validate_actions` (inspection_rule.py lines 181-204): evaluate
`actions_schema()` (which may raise), run the jsonschema check (failure is
`exception.Invalid` here, unlike the conditions path), then the per-action
loop. -/
def _validate_actions (env : RuleEnv) (st : RuleModuleState)
    (actionsJson : List ActJson) :
    Except RuleApiError (List (String × List (String × PVal)) × RuleModuleState) := do
  let (schema, st) ← actions_schema env.actionPlugins st
  if !jsonschemaValidateActions schema actionsJson then
    .error RuleApiError.invalidActionsSchema
  else do
    let acts ← actionsJson.mapM (validateActEntry env)
    .ok (acts, st)

/-! ## Node lookup and BMC cache: `ironic/drivers/modules/inspect_utils.py` -/

/-- `LOOKUP_CACHE_FIELD` (inspect_utils.py line 222). -/
def LOOKUP_CACHE_FIELD : String := "lookup_bmc_addresses"

/-- `states.INSPECTWAIT`, the awaiting-inspection provision state (external
constant; its concrete string is irrelevant to the logic). -/
def INSPECTWAIT : String := "inspect wait"

/-- A fleet record as read by `lookup_node` and mutated by
`cache_lookup_addresses`: uuid, provision state, `driver_info` items, and the
`driver_internal_info[LOOKUP_CACHE_FIELD]` entry (`none` when the key is
absent, matching `.get(LOOKUP_CACHE_FIELD) or ()`). -/
structure Node where
  uuid : String
  provisionState : String
  driverInfo : List (String × String)
  lookupCache : Option (List String)
deriving DecidableEq

/-- A port row: MAC address and owning node, the join
`objects.Node.get_by_port_addresses` scans. -/
structure DBPort where
  address : String
  nodeUuid : String
deriving DecidableEq

/-- A consistent snapshot of the persistence layer visible to one
`lookup_node` call (spec section 5 assumes no concurrent mutation within a
call). -/
structure DB where
  nodes : List Node
  ports : List DBPort
deriving DecidableEq

/-- `objects.Node.get_by_uuid` (persistence port, modelled from the spec:
fetch the record with the given identity or fail with a record-specific
NotFound). -/
def get_by_uuid (db : DB) (u : String) : Option Node :=
  db.nodes.find? (fun n => n.uuid == u)

/-- Distinct owners of ports whose address is in the given list. -/
def portOwnerUuids (db : DB) (macAddresses : List String) : List String :=
  ((db.ports.filter (fun p => macAddresses.contains p.address)).map
    DBPort.nodeUuid).dedup

/-- `objects.Node.get_by_port_addresses` (persistence port, modelled from the
spec: resolve the record owning any port with a matching address; zero or
several matching records fail with NotFound). -/
def get_by_port_addresses (db : DB) (macAddresses : List String) : Option Node :=
  match portOwnerUuids db macAddresses with
  | [u] => get_by_uuid db u
  | _ => none

/-- Failures of `lookup_node`. `notFound` is the generic `exception.NotFound()`
raised with no arguments; `nodeNotFound` models the *specific* NotFound of
`objects.Node.get_by_uuid` re-raised bare by the `raise` at inspect_utils.py
line 325 (the only failure path that does not construct a fresh generic
error). -/
inductive LookupErr where
  | notFound
  | nodeNotFound (uuid : String)
deriving DecidableEq

/-- Claimed-uuid branch of `lookup_node` (inspect_utils.py lines 235-243): a
missing record is re-raised as a fresh generic NotFound. A falsy (`None`)
`node_uuid` skips the branch; the API never passes an empty string, which the
model folds into `none`. -/
def lookupByUuid (db : DB) (nodeUuid : Option String) :
    Except LookupErr (Option Node) :=
  match nodeUuid with
  | none => .ok none
  | some u =>
    match get_by_uuid db u with
    | none => .error .notFound
    | some n => .ok (some n)

/-- MAC branch of `lookup_node` (inspect_utils.py lines 245-260): a failed
port lookup is only logged; on success the found node replaces the current
one unless it contradicts the claimed uuid, which is a generic NotFound. -/
def lookupByMacs (db : DB) (macAddresses : List String) (nodeUuid : Option String)
    (node : Option Node) : Except LookupErr (Option Node) :=
  if macAddresses.isEmpty then .ok node
  else
    match get_by_port_addresses db macAddresses with
    | none => .ok node
    | some n =>
      match nodeUuid with
      | some u => if n.uuid ≠ u then .error .notFound else .ok (some n)
      | none => .ok (some n)

/-- Provision-state gate of `lookup_node` (inspect_utils.py lines 263-270): a
resolved node must be awaiting inspection. -/
def checkProvisionState (node : Option Node) : Except LookupErr (Option Node) :=
  match node with
  | some n =>
    if n.provisionState ≠ INSPECTWAIT then .error .notFound else .ok (some n)
  | none => .ok none

/-- The uuid, MAC and provision-state phases of `lookup_node` that run before
the BMC branch (inspect_utils.py lines 235-270). -/
def lookupPreBmc (db : DB) (macAddresses : List String) (nodeUuid : Option String) :
    Except LookupErr (Option Node) := do
  let node ← lookupByUuid db nodeUuid
  let node ← lookupByMacs db macAddresses nodeUuid node
  checkProvisionState node

/-- The cached lookup addresses of a record
(`driver_internal_info.get(LOOKUP_CACHE_FIELD) or ()`, inspect_utils.py lines
288-289). -/
def cacheAddresses (n : Node) : List String :=
  n.lookupCache.getD []

/-- The candidate set `nodes_by_bmc` (inspect_utils.py lines 282-291): uuids
of awaiting-inspection records whose cached lookup addresses intersect the
reported BMC addresses, with set semantics. -/
def nodesByBmc (db : DB) (bmcAddresses : List String) : List String :=
  (((db.nodes.filter (fun n => n.provisionState == INSPECTWAIT)).filter
      (fun n => (cacheAddresses n).any (fun a => bmcAddresses.contains a))).map
    Node.uuid).dedup

/-- BMC branch of `lookup_node` (inspect_utils.py lines 279-325): a node
already resolved must be in a non-empty candidate set; with no resolved node a
singleton candidate set is fetched and adopted (a vanished record re-raises the
specific NotFound bare, line 325), more than one candidate is a generic
NotFound, an empty set resolves nothing. -/
def lookupByBmc (db : DB) (bmcAddresses : List String) (node : Option Node) :
    Except LookupErr (Option Node) :=
  if bmcAddresses.isEmpty then .ok node
  else
    let byBmc := nodesByBmc db bmcAddresses
    match node with
    | some n =>
      if ¬byBmc.isEmpty ∧ ¬byBmc.contains n.uuid then .error .notFound
      else .ok (some n)
    | none =>
      match byBmc with
      | [] => .ok none
      | [u] =>
        match get_by_uuid db u with
        | some n => .ok (some n)
        | none => .error (.nodeNotFound u)
      | _ => .error .notFound

/-- `lookup_node` (inspect_utils.py lines 225-337): uuid phase, MAC phase,
provision-state gate, BMC phase, and the final rejection when nothing
resolved. -/
def lookup_node (db : DB) (macAddresses bmcAddresses : List String)
    (nodeUuid : Option String) : Except LookupErr Node := do
  let node ← lookupPreBmc db macAddresses nodeUuid
  let node ← lookupByBmc db bmcAddresses node
  match node with
  | some n => .ok n
  | none => .error LookupErr.notFound

/-- Environment of `_get_bmc_addresses` for one node: `ipmitool.
is_bridging_enabled(node)` (repo code outside the excerpt, treated as an
input), `urllib.parse.urlparse(address).hostname` for URL-shaped addresses,
`socket.getaddrinfo` returning the resolved IP addresses of both families (or
`none` for `socket.gaierror`), and `ironic.common.utils.is_loopback`. -/
structure BmcEnv where
  isBridgingEnabled : Bool
  urlHostname : String → String
  getaddrinfo : String → Option (List String)
  isLoopback : String → Bool

/-- Whether a Python `in` test finds `'//'` in the string
(inspect_utils.py line 366). -/
def containsSlashSlash : List Char → Bool
  | '/' :: '/' :: _ => true
  | _ :: rest => containsSlashSlash rest
  | [] => false

/-- Python `str.strip(c)` for a single strip character: remove every leading
and trailing occurrence. -/
def stripChar (c : Char) (l : List Char) : List Char :=
  ((l.dropWhile (· == c)).reverse.dropWhile (· == c)).reverse

/-- `address.strip('[').strip(']')` (inspect_utils.py line 370). -/
def stripBrackets (s : String) : String :=
  ⟨stripChar ']' (stripChar '[' s.data)⟩

/-- Python `str.endswith`. -/
def strEndsWith (s suffix : String) : Bool :=
  suffix.data.isSuffixOf s.data

/-- Python `str.startswith`. -/
def strStartsWith (s pre : String) : Bool :=
  pre.data.isPrefixOf s.data

/-- The address normalisation of `_get_bmc_addresses` (inspect_utils.py lines
366-370): extract the URL hostname when the value contains `'//'`, then strip
IPv6 brackets. -/
def normalizedAddr (env : BmcEnv) (address : String) : String :=
  stripBrackets (if containsSlashSlash address.data then env.urlHostname address else address)

/-- Contribution of one `driver_info` item to the address set
(inspect_utils.py lines 353-391): skip names without the `_address` suffix,
skip `ipmi_*` fields under bridging, skip unresolvable hostnames, keep every
non-loopback resolved IP and additionally the normalised address string itself
when it is not a loopback. -/
def bmcFieldAddresses (env : BmcEnv) (name address : String) : List String :=
  if !strEndsWith name "_address" then []
  else if strStartsWith name "ipmi_" && env.isBridgingEnabled then []
  else
    let address := normalizedAddr env address
    match env.getaddrinfo address with
    | none => []
    | some ips =>
      ips.filter (fun ip => !env.isLoopback ip) ++
        (if !env.isLoopback address then [address] else [])

/-- `_get_bmc_addresses` (inspect_utils.py lines 340-393): the union over all
`driver_info` items, with set semantics. -/
def _get_bmc_addresses (env : BmcEnv) (driverInfo : List (String × String)) :
    List String :=
  ((driverInfo.map (fun nv => bmcFieldAddresses env nv.1 nv.2)).flatten).dedup

/-- `clear_lookup_addresses` (inspect_utils.py lines 410-412): delete the
cache entry. -/
def clear_lookup_addresses (node : Node) : Node :=
  { node with lookupCache := none }

/-- `cache_lookup_addresses` (inspect_utils.py lines 396-407): store the
computed address set in the cache field, or clear the field when the set is
empty. -/
def cache_lookup_addresses (env : BmcEnv) (node : Node) : Node :=
  let addresses := _get_bmc_addresses env node.driverInfo
  if !addresses.isEmpty then { node with lookupCache := some addresses }
  else clear_lookup_addresses node

/-- The cache contents as claim C6 states them, following the spec words
(section 4.5): only the IP addresses obtained by resolving each usable field,
never the configured address string itself. Kept separate from
`_get_bmc_addresses` (the embedding of the source) for comparison. -/
def claimedBmcAddresses (env : BmcEnv) (driverInfo : List (String × String)) :
    List String :=
  ((driverInfo.map (fun nv =>
    if !strEndsWith nv.1 "_address" then []
    else if strStartsWith nv.1 "ipmi_" && env.isBridgingEnabled then []
    else
      match env.getaddrinfo (normalizedAddr env nv.2) with
      | none => []
      | some ips => ips.filter (fun ip => !env.isLoopback ip))).flatten).dedup

/-- A port row for `create_ports_if_not_exist`: MAC address and owning node
id. -/
structure PortRec where
  address : String
  nodeId : Nat
deriving DecidableEq

/-- `objects.Port.create` (persistence port, modelled from its use at
inspect_utils.py lines 66-72: creating a port whose MAC address already exists
fails with `MACAlreadyExists`, otherwise the port row is appended). -/
def portCreate (db : List PortRec) (p : PortRec) : Except Unit (List PortRec) :=
  if db.any (fun q => q.address == p.address) then .error ()
  else .ok (db ++ [p])

/-- `create_ports_if_not_exist` (inspect_utils.py lines 35-72) with an
explicit MAC list: skip invalid MAC addresses (`netutils.is_valid_mac` is the
external validity test), create a port per remaining address, and swallow
`MACAlreadyExists`. The result is the port table after the call. -/
def create_ports_if_not_exist (isValidMac : String → Bool) (nodeId : Nat)
    (db : List PortRec) (macs : List String) : List PortRec :=
  match macs with
  | [] => db
  | mac :: rest =>
    if !isValidMac mac then
      create_ports_if_not_exist isValidMac nodeId db rest
    else
      match portCreate db ⟨mac, nodeId⟩ with
      | .ok db' => create_ports_if_not_exist isValidMac nodeId db' rest
      | .error _ => create_ports_if_not_exist isValidMac nodeId db rest

/-! ## Kea DHCP client: `ironic/dhcp/kea.py` -/

/-- Outcome of one `requests.post` attempt inside `_make_request` (kea.py
lines 44-51): success (2xx with a JSON body), `requests.exceptions.Timeout`,
or any other `requests.exceptions.RequestException` (including the HTTP error
from `raise_for_status`). The `Timeout` handler is listed first in the source
and `Timeout` is a `RequestException` subclass, so a timeout always takes the
first handler. -/
inductive ReqOutcome where
  | success
  | timeout
  | failure
deriving DecidableEq

/-- Observable result of `_make_request`: the JSON body returned from inside
the loop, the implicit `None` returned when the loop ends without a `return`,
or the raised `DHCPConfigurationError`. -/
inductive KeaResult where
  | json
  | noneReturn
  | configError
deriving DecidableEq

/-- The retry loop of `_make_request` (kea.py lines 43-66), indexed by the
current attempt and the remaining iterations of `range(max_retries)`: success
returns, a timeout is logged and retried, another request failure raises
`DHCPConfigurationError` on the last attempt (`attempt == max_retries - 1`)
and is retried otherwise. -/
def makeRequestGo (outcomes : Nat → ReqOutcome) (maxRetries : Nat) :
    Nat → Nat → KeaResult
  | _, 0 => .noneReturn
  | attempt, remaining + 1 =>
    match outcomes attempt with
    | .success => .json
    | .timeout => makeRequestGo outcomes maxRetries (attempt + 1) remaining
    | .failure =>
      if attempt = maxRetries - 1 then .configError
      else makeRequestGo outcomes maxRetries (attempt + 1) remaining

/-- `KeaDHCPApi._make_request` (kea.py lines 36-66) for a fixed command: run
the retry loop over `range(max_retries)` from attempt 0; `outcomes i` is what
the i-th HTTP attempt would do. -/
def KeaDHCPApi._make_request (outcomes : Nat → ReqOutcome) (maxRetries : Nat) :
    KeaResult :=
  makeRequestGo outcomes maxRetries 0 maxRetries

/-- Number of HTTP attempts the retry loop performs. -/
def attemptsGo (outcomes : Nat → ReqOutcome) (maxRetries : Nat) :
    Nat → Nat → Nat
  | _, 0 => 0
  | attempt, remaining + 1 =>
    match outcomes attempt with
    | .success => 1
    | .timeout => 1 + attemptsGo outcomes maxRetries (attempt + 1) remaining
    | .failure =>
      if attempt = maxRetries - 1 then 1
      else 1 + attemptsGo outcomes maxRetries (attempt + 1) remaining

/-- Number of HTTP attempts a full `_make_request` call performs. -/
def attemptsUsed (outcomes : Nat → ReqOutcome) (maxRetries : Nat) : Nat :=
  attemptsGo outcomes maxRetries 0 maxRetries

/-! ## Concrete instances used by the closed theorems and witnesses -/

/-- A system-scoped request context (`system_scope == 'all'`). -/
def ctxSystem : ApiContext := ⟨true, none⟩

/-- A runbook create body carrying both `public=true` and `owner="foo"`. -/
def runbookPublicOwned : RunbookDict :=
  { uuid := none, name := "deploy-book", steps := [⟨"raid", "create_config"⟩],
    public := some true, owner := some "foo" }

/-- A runbook body requesting an owner other than the caller's project. -/
def runbookForeignOwner : RunbookDict :=
  { uuid := none, name := "deploy-book", steps := [⟨"raid", "create_config"⟩],
    public := none, owner := some "other-project" }

/-- A runbook with a duplicated `(raid, create_config)` step pair. -/
def runbookWithDupSteps : RunbookDict :=
  { uuid := none, name := "dup-book",
    steps := [⟨"raid", "create_config"⟩, ⟨"bios", "apply_configuration"⟩,
      ⟨"raid", "create_config"⟩],
    public := none, owner := none }

/-- A duplicate-free runbook. -/
def runbookNoDupSteps : RunbookDict :=
  { uuid := none, name := "clean-book",
    steps := [⟨"raid", "create_config"⟩, ⟨"bios", "apply_configuration"⟩],
    public := none, owner := none }

/-- A stored runbook owned by project `proj`, not public. -/
def storedOwnedRunbook : RunbookDict :=
  { uuid := some "runbook-5c9b", name := "owned-book",
    steps := [⟨"raid", "create_config"⟩], public := some false, owner := some "proj" }

/-- A patch document that only sets `public` to `true`. -/
def patchSetPublic : List PatchOp := [⟨.replace, "/public", .pbool true⟩]

/-- A patch document that sets an owner. -/
def patchSetOwner : List PatchOp := [⟨.replace, "/owner", .pstr "proj2"⟩]

/-- A plugin environment with an `eq` condition operator and a `set-attribute`
action operator whose parameter validation always passes. -/
def ruleEnvEq : RuleEnv :=
  { conditionPlugins := ["eq"], actionPlugins := ["set-attribute"],
    conditionValidate := fun _ _ => none, actionValidate := fun _ _ => none }

/-- A condition entry with a valid scheme and a syntactically valid path. -/
def condGoodPath : CondJson :=
  { op := "eq", field := "data://inventory.cpu.count", multiple := none,
    invert := none, params := [] }

/-- A condition entry with an unsupported scheme. -/
def condBadScheme : CondJson :=
  { op := "eq", field := "http://inventory.cpu.count", multiple := none,
    invert := none, params := [] }

/-- The module state after both lazy schemas have been built, the state the
lazy-initialisation pattern aims for. -/
def builtRuleModuleState : RuleModuleState :=
  ⟨some (some (buildConditionsSchema ["eq"])),
   some (some (buildActionsSchema ["set-attribute"]))⟩

/-- The module state the source would start from had both globals been bound
to `None` at module level (as the lazy-initialisation pattern presumes). -/
def noneBoundRuleModuleState : RuleModuleState := ⟨some none, some none⟩

/-- A record awaiting inspection with one cached BMC address. -/
def nodeAwaiting : Node := ⟨"uuid-1", INSPECTWAIT, [], some ["192.0.2.1"]⟩

/-- A snapshot containing only `nodeAwaiting` and no ports. -/
def dbOneNode : DB := ⟨[nodeAwaiting], []⟩

/-- A resolution environment where `bmc.example.com` resolves to one
non-loopback IPv4 address and nothing else resolves. -/
def envResolves : BmcEnv :=
  { isBridgingEnabled := false, urlHostname := fun s => s,
    getaddrinfo := fun a => if a = "bmc.example.com" then some ["203.0.113.5"] else none,
    isLoopback := fun _ => false }

/-- A node whose `driver_info` holds one Redfish BMC hostname. -/
def nodeRedfish : Node :=
  { uuid := "n1", provisionState := INSPECTWAIT,
    driverInfo := [("redfish_address", "bmc.example.com")], lookupCache := none }

/-- A MAC-validity test accepting exactly the sample address used in the
witnesses. -/
def sampleValidMac : String → Bool := fun m => m = "52:54:00:12:34:56"

/-! ## Generic inversion helpers for `Except` -/

theorem except_bind_error {ε α β : Type} {x : Except ε α} {f : α → Except ε β} {e : ε}
    (h : x >>= f = .error e) : x = .error e ∨ ∃ a, x = .ok a ∧ f a = .error e := by
  cases x with
  | error e' =>
    have he : e' = e := by simpa [Bind.bind, Except.bind] using h
    subst he
    exact Or.inl rfl
  | ok a => exact Or.inr ⟨a, rfl, by simpa [Bind.bind, Except.bind] using h⟩

theorem except_bind_ok {ε α β : Type} {x : Except ε α} {f : α → Except ε β} {b : β}
    (h : x >>= f = .ok b) : ∃ a, x = .ok a ∧ f a = .ok b := by
  cases x with
  | error e' => simp [Bind.bind, Except.bind] at h
  | ok a => exact ⟨a, rfl, by simpa [Bind.bind, Except.bind] using h⟩

theorem except_bind_of_ok {ε α β : Type} {x : Except ε α} {f : α → Except ε β} {a : α}
    (hx : x = .ok a) : x >>= f = f a := by
  subst hx; rfl

theorem except_bind_of_error {ε α β : Type} {x : Except ε α} {f : α → Except ε β} {e : ε}
    (hx : x = .error e) : x >>= f = .error e := by
  subst hx; rfl

/-! ## Duplicate step detection (claim C8) -/

theorem mem_duplicatePairs (v : RunbookDict) (k : String × String) :
    k ∈ duplicatePairs v ↔ 2 ≤ countKey (v.steps.map stepKey) k := by
  unfold duplicatePairs
  simp only [List.mem_filter, List.mem_dedup, decide_eq_true_eq]
  constructor
  · rintro ⟨-, h⟩
    omega
  · intro h
    have h0 : 0 < countKey (v.steps.map stepKey) k := by omega
    unfold countKey at h0
    rcases List.countP_pos_iff.mp h0 with ⟨a, ha, hak⟩
    exact ⟨(of_decide_eq_true hak) ▸ ha, by omega⟩

/-- Claim C8: for every runbook step list, two or more steps sharing one
(interface, step) pair make the validator fail with `InvalidRunbook` carrying
each duplicated pair, while a repeat-free step list passes with the value
returned unchanged. -/
theorem duplicate_steps_spec (v : RunbookDict) :
    ((∀ k, countKey (v.steps.map stepKey) k ≤ 1) → duplicate_steps v = .ok v)
    ∧ (∀ k, 2 ≤ countKey (v.steps.map stepKey) k →
        duplicate_steps v = .error (.invalidRunbook (duplicatePairs v))
          ∧ ∀ k', (k' ∈ duplicatePairs v ↔ 2 ≤ countKey (v.steps.map stepKey) k')) := by
  constructor
  · intro h
    have hnil : duplicatePairs v = [] := by
      rcases hd : duplicatePairs v with _ | ⟨k, rest⟩
      · rfl
      · have hk : k ∈ duplicatePairs v := by
          rw [hd]; exact List.mem_cons_self k rest
        have h2 := (mem_duplicatePairs v k).mp hk
        have h1 := h k
        omega
    simp [duplicate_steps, hnil]
  · intro k hk
    have hmem : k ∈ duplicatePairs v := (mem_duplicatePairs v k).mpr hk
    have hne : duplicatePairs v ≠ [] := List.ne_nil_of_mem hmem
    exact ⟨by simp [duplicate_steps, hne], fun k' => mem_duplicatePairs v k'⟩

theorem duplicate_steps_spec_witness :
    duplicate_steps runbookWithDupSteps
        = .error (.invalidRunbook (duplicatePairs runbookWithDupSteps))
      ∧ (("raid", "create_config") ∈ duplicatePairs runbookWithDupSteps
          ↔ 2 ≤ countKey (runbookWithDupSteps.steps.map stepKey)
              ("raid", "create_config")) := by
  have h := (duplicate_steps_spec runbookWithDupSteps).2 ("raid", "create_config") (by decide)
  exact ⟨h.1, h.2 ("raid", "create_config")⟩

/-! ## Runbook owner/public policy (claim C1) -/

theorem RUNBOOK_VALIDATOR_ok {d d' : RunbookDict} (h : RUNBOOK_VALIDATOR d = .ok d') :
    d' = d := by
  unfold RUNBOOK_VALIDATOR duplicate_steps at h
  by_cases hs : runbookSchemaOk d
  · rw [if_pos hs] at h
    by_cases hd : duplicatePairs d = []
    · rw [if_pos hd] at h
      injection h with h
      exact h.symm
    · rw [if_neg hd] at h
      simp at h
  · rw [if_neg hs] at h
    simp at h

theorem get_patch_values_cons (p : PatchOp) (ops : List PatchOp) (path : String) :
    get_patch_values (p :: ops) path
      = if p.path = path ∧ (p.op = PatchOpKind.add ∨ p.op = PatchOpKind.replace)
        then p.value :: get_patch_values ops path else get_patch_values ops path := by
  unfold get_patch_values
  by_cases hp : p.path = path ∧ (p.op = PatchOpKind.add ∨ p.op = PatchOpKind.replace)
  · simp [List.filter_cons, hp]
  · simp [List.filter_cons, hp]

theorem applyPatchOp_owner_none {d : RunbookDict} {p : PatchOp}
    (hp : ¬(p.path = "/owner" ∧ (p.op = PatchOpKind.add ∨ p.op = PatchOpKind.replace)))
    (h : d.owner = none) : (applyPatchOp d p).owner = none := by
  unfold applyPatchOp
  by_cases h1 : p.path = "/owner"
  · rw [if_pos h1]
    have hop : p.op = PatchOpKind.remove := by
      cases hpo : p.op
      · exact absurd ⟨h1, Or.inl hpo⟩ hp
      · exact absurd ⟨h1, Or.inr hpo⟩ hp
      · rfl
    rw [hop]
    cases p.value <;> rfl
  · rw [if_neg h1]
    by_cases h2 : p.path = "/public"
    · rw [if_pos h2]
      cases p.op <;> cases p.value <;> simpa using h
    · rw [if_neg h2]
      exact h

theorem foldl_applyPatchOp_owner_none (ops : List PatchOp) :
    ∀ d : RunbookDict, d.owner = none → get_patch_values ops "/owner" = [] →
      (ops.foldl applyPatchOp d).owner = none := by
  induction ops with
  | nil => intro d h _; simpa using h
  | cons p rest ih =>
    intro d h hg
    rw [get_patch_values_cons] at hg
    by_cases hp : p.path = "/owner" ∧ (p.op = PatchOpKind.add ∨ p.op = PatchOpKind.replace)
    · rw [if_pos hp] at hg
      simp at hg
    · rw [if_neg hp] at hg
      rw [List.foldl_cons]
      exact ih (applyPatchOp d p) (applyPatchOp_owner_none hp h) hg

/-- Claim C1 counterexample: a system-scoped create request carrying both
public=true and owner="foo" is accepted by `RunbooksController.post`, and the
persisted runbook keeps both fields; the create path therefore does not
enforce the owner/public exclusivity and the claimed invariant fails. -/
theorem runbook_post_public_owner_counterexample :
    RunbooksController.post ctxSystem runbookPublicOwned = .ok runbookPublicOwned
    ∧ runbookPublicOwned.owner = some "foo"
    ∧ runbookPublicOwned.public = some true :=
  ⟨rfl, rfl, rfl⟩

/-- Claim C1 (amended): the create path rejects only a project-scoped request
whose truthy owner differs from the caller's project (and otherwise overwrites
the owner with the caller's project id), while a system-scoped create persists
the validated body unchanged, public or not; the patch path rejects a patch
that sets `owner` while `public` is patched or already truthy on the stored
runbook, and a patch that touches `/public` without touching `/owner` silently
clears the stored owner instead of being rejected. -/
theorem runbook_owner_public_policy :
    (∀ ctx rb, ctx.systemScopeAll = false →
        RUNBOOK_VALIDATOR rb = .ok rb →
        strTruthy rb.owner = true →
        rb.owner ≠ (if strTruthy ctx.projectId then ctx.projectId else none) →
        RunbooksController.post ctx rb = .error RunbookError.invalid)
    ∧ (∀ ctx rb rb', ctx.systemScopeAll = false →
        RunbooksController.post ctx rb = .ok rb' →
        rb'.owner = (if strTruthy ctx.projectId then ctx.projectId else none))
    ∧ (∀ ctx rb, ctx.systemScopeAll = true →
        RunbooksController.post ctx rb = RUNBOOK_VALIDATOR rb)
    ∧ (∀ stored patchDoc, patch_validate_allowed_fields patchDoc = true →
        get_patch_values patchDoc "/owner" ≠ [] →
        (get_patch_values patchDoc "/public" ≠ [] ∨ boolTruthy stored.public = true) →
        RunbooksController.patch stored patchDoc = .error RunbookError.patchError)
    ∧ (∀ stored patchDoc rb', get_patch_values patchDoc "/public" ≠ [] →
        get_patch_values patchDoc "/owner" = [] →
        RunbooksController.patch stored patchDoc = .ok rb' →
        rb'.owner = none) := by
  refine ⟨?_, ?_, ?_, ?_, ?_⟩
  · intro ctx rb hscope hval howner hneq
    unfold RunbooksController.post
    rw [except_bind_of_ok hval, hscope]
    simp only [Bool.false_eq_true, if_false]
    rw [if_pos ⟨howner, hneq⟩]
  · intro ctx rb rb' hscope hok
    unfold RunbooksController.post at hok
    rcases except_bind_ok hok with ⟨v, hv, hrest⟩
    rw [hscope] at hrest
    simp only [Bool.false_eq_true, if_false] at hrest
    by_cases hc : strTruthy v.owner ∧ v.owner ≠ (if strTruthy ctx.projectId then ctx.projectId else none)
    · rw [if_pos hc] at hrest
      simp at hrest
    · rw [if_neg hc] at hrest
      injection hrest with hrest
      rw [← hrest]
  · intro ctx rb hscope
    unfold RunbooksController.post
    cases hv : RUNBOOK_VALIDATOR rb with
    | error e => rfl
    | ok v => simp [Bind.bind, Except.bind, hscope]
  · intro stored patchDoc hall howner hpub
    unfold RunbooksController.patch
    rw [hall]
    simp only [Bool.not_true, Bool.false_eq_true, if_false]
    rw [if_pos ⟨howner, hpub⟩]
  · intro stored patchDoc rb' hpub howner hok
    unfold RunbooksController.patch at hok
    by_cases hall : patch_validate_allowed_fields patchDoc
    · rw [hall] at hok
      simp only [Bool.not_true, Bool.false_eq_true, if_false] at hok
      rw [if_neg (by simp [howner])] at hok
      rw [if_pos hpub] at hok
      have hbase : (RunbookDict.mk stored.uuid stored.name stored.steps stored.public
          none).owner = none := rfl
      have hfold := foldl_applyPatchOp_owner_none patchDoc _ hbase howner
      have := RUNBOOK_VALIDATOR_ok hok
      rw [this]
      exact hfold
    · rw [Bool.not_eq_true] at hall
      rw [hall] at hok
      simp at hok

theorem runbook_owner_public_policy_witness :
    RunbooksController.post ⟨false, some "proj"⟩ runbookForeignOwner
      = .error RunbookError.invalid :=
  runbook_owner_public_policy.1 ⟨false, some "proj"⟩ runbookForeignOwner rfl rfl
    (by decide) (by decide)

/-! ## Path parsing and rule validation (claims C4, C5, C9) -/

/-- Claim C5: `_parse_path` defaults to the `data` scheme on strings without a
separator and round-trips `scheme://path` for both supported schemes, and the
scheme check of the per-condition loop rejects any other scheme with
`Invalid`; however, the full `_validate_conditions` entry point never reaches
that check: it fails with the `NameError` of the unbound module global
`_CONDITIONS_SCHEMA`, so a bad scheme does not surface as `Invalid`. -/
theorem parse_path_spec :
    (∀ s : String, containsSchemeSep s = false → _parse_path s = ("data", s))
    ∧ (∀ p : String, _parse_path ("node://" ++ p) = ("node", p))
    ∧ (∀ p : String, _parse_path ("data://" ++ p) = ("data", p))
    ∧ (∀ env : RuleEnv, ∀ cond : CondJson, ∀ scheme path : String,
        _parse_path cond.field = (scheme, path) →
        scheme ≠ "node" → scheme ≠ "data" →
        validateCondEntry env cond = .error (.invalidScheme scheme))
    ∧ _validate_conditions ruleEnvEq initialRuleModuleState [condBadScheme]
        = .error (.nameError "_CONDITIONS_SCHEMA") := by
  refine ⟨?_, ?_, ?_, ?_, rfl⟩
  · intro s hs
    have hn : findIdx3 s.data = none := by
      unfold containsSchemeSep at hs
      exact Option.not_isSome_iff_eq_none.mp (by simp [hs])
    unfold _parse_path
    rw [hn]
  · intro p
    show _parse_path ⟨"node://".data ++ p.data⟩ = ("node", p)
    simp [_parse_path, findIdx3]
  · intro p
    show _parse_path ⟨"data://".data ++ p.data⟩ = ("data", p)
    simp [_parse_path, findIdx3]
  · intro env cond scheme path hparse hn hd
    unfold validateCondEntry
    rw [hparse]
    dsimp only
    rw [if_pos ⟨hn, hd⟩]

theorem parse_path_spec_witness :
    _parse_path "inventory.memory_mb" = ("data", "inventory.memory_mb") :=
  parse_path_spec.1 "inventory.memory_mb" (by decide)

/-- Claim C4: with the module state as imported, `_validate_conditions` fails
with the `NameError` of the unbound `_CONDITIONS_SCHEMA` global even on an
entry whose path is syntactically valid; and even in the state the lazy
initialisation aims for, every entry with a valid scheme fails with the
path-`Invalid` error because the `jsonpath` name is never imported, so a
syntactically valid path expression still raises. -/
theorem validate_conditions_always_fail :
    _validate_conditions ruleEnvEq initialRuleModuleState [condGoodPath]
      = .error (.nameError "_CONDITIONS_SCHEMA")
    ∧ _validate_conditions ruleEnvEq builtRuleModuleState [condGoodPath]
      = .error (.invalidPath "data://inventory.cpu.count" "name jsonpath is not defined")
    ∧ (∀ env : RuleEnv, ∀ cond : CondJson, (_parse_path cond.field).1 = "data" →
        validateCondEntry env cond
          = .error (.invalidPath cond.field "name jsonpath is not defined")) := by
  refine ⟨rfl, rfl, ?_⟩
  intro env cond h
  unfold validateCondEntry
  rcases hp : _parse_path cond.field with ⟨scheme, path⟩
  rw [hp] at h
  simp only at h
  subst h
  dsimp only
  rw [if_neg (by simp)]
  rfl

theorem validate_conditions_always_fail_witness :
    validateCondEntry ruleEnvEq condGoodPath
      = .error (.invalidPath "data://inventory.cpu.count" "name jsonpath is not defined") :=
  validate_conditions_always_fail.2.2 ruleEnvEq condGoodPath (by decide)

/-- Claim C9: the actions schema document requires at least one action while
the conditions schema document accepts an empty list, and with the schema
global bound an empty actions array is rejected by the schema check for every
plugin environment, before any per-operator validation; however the entry
point as imported fails earlier with the `NameError` of the unbound
`_ACTIONS_SCHEMA` global, not with a schema validation error. -/
theorem inspection_rule_schema_minimums :
    (∀ ps : List String,
        (buildActionsSchema ps).minItems = 1 ∧ (buildConditionsSchema ps).minItems = 0)
    ∧ (∀ ps : List String, ∀ acts : List ActJson,
        jsonschemaValidateActions (buildActionsSchema ps) acts = true → acts ≠ [])
    ∧ (∀ ps : List String, jsonschemaValidateConditions (buildConditionsSchema ps) [] = true)
    ∧ (∀ env : RuleEnv, ∀ st : RuleModuleState, st.actionsSchemaGlobal = some none →
        _validate_actions env st [] = .error RuleApiError.invalidActionsSchema)
    ∧ _validate_actions ruleEnvEq initialRuleModuleState []
        = .error (.nameError "_ACTIONS_SCHEMA") := by
  refine ⟨fun ps => ⟨rfl, rfl⟩, ?_, fun ps => rfl, ?_, rfl⟩
  · intro ps acts h hnil
    subst hnil
    simp [jsonschemaValidateActions, buildActionsSchema] at h
  · intro env st hst
    unfold _validate_actions actions_schema
    rw [hst]
    simp [Bind.bind, Except.bind, jsonschemaValidateActions, buildActionsSchema]

theorem inspection_rule_schema_minimums_witness :
    _validate_actions ruleEnvEq noneBoundRuleModuleState []
      = .error RuleApiError.invalidActionsSchema :=
  inspection_rule_schema_minimums.2.2.2.1 ruleEnvEq noneBoundRuleModuleState rfl

/-! ## Kea retry loop (claim C7) -/

theorem makeRequestGo_congr (o o' : Nat → ReqOutcome) (m : Nat)
    (h : ∀ i, i < m → o i = o' i) :
    ∀ r a, a + r ≤ m → makeRequestGo o m a r = makeRequestGo o' m a r := by
  intro r
  induction r with
  | zero => intro a _; rfl
  | succ r ih =>
    intro a ha
    have hlt : a < m := by omega
    unfold makeRequestGo
    rw [h a hlt]
    cases o' a with
    | success => rfl
    | timeout => exact ih (a + 1) (by omega)
    | failure =>
      by_cases hl : a = m - 1
      · rw [if_pos hl, if_pos hl]
      · rw [if_neg hl, if_neg hl]
        exact ih (a + 1) (by omega)

theorem attemptsGo_le (o : Nat → ReqOutcome) (m : Nat) :
    ∀ r a, attemptsGo o m a r ≤ r := by
  intro r
  induction r with
  | zero => intro a; exact Nat.le_refl 0
  | succ r ih =>
    intro a
    unfold attemptsGo
    cases ho : o a with
    | success => dsimp only; omega
    | timeout => dsimp only; have := ih (a + 1); omega
    | failure =>
      dsimp only
      by_cases hl : a = m - 1
      · rw [if_pos hl]; omega
      · rw [if_neg hl]; have := ih (a + 1); omega

theorem makeRequestGo_all_timeout (o : Nat → ReqOutcome) (m : Nat)
    (h : ∀ i, i < m → o i = .timeout) :
    ∀ r a, a + r ≤ m → makeRequestGo o m a r = .noneReturn := by
  intro r
  induction r with
  | zero => intro a _; rfl
  | succ r ih =>
    intro a ha
    unfold makeRequestGo
    rw [h a (by omega)]
    exact ih (a + 1) (by omega)

/-- Claim C7 counterexample: with three attempts all timing out,
`_make_request` performs its loop and falls through, returning `None` rather
than surfacing a `DHCPConfigurationError` — a failing final attempt is
silently swallowed when the failure is a timeout. -/
theorem kea_timeout_swallowed_counterexample :
    KeaDHCPApi._make_request (fun _ => ReqOutcome.timeout) 3 = KeaResult.noneReturn
    ∧ KeaResult.noneReturn ≠ KeaResult.configError :=
  ⟨rfl, by decide⟩

/-- Claim C7 (amended): `_make_request` consults at most `max_retries`
attempts (the result only depends on the first `max_retries` outcomes, and the
attempt count is bounded by `max_retries`); a timeout is retried, a non-timeout
request failure is retried until the last attempt and raises
`DHCPConfigurationError` on the last attempt; but a timeout on the last
attempt (in particular a run whose attempts all time out) is swallowed and the
call returns `None` instead of surfacing an error. -/
theorem kea_make_request_retry_contract (o : Nat → ReqOutcome) (m : Nat) :
    (∀ o' : Nat → ReqOutcome, (∀ i, i < m → o i = o' i) →
        KeaDHCPApi._make_request o m = KeaDHCPApi._make_request o' m)
    ∧ attemptsUsed o m ≤ m
    ∧ (∀ i r, o i = .timeout →
        makeRequestGo o m i (r + 1) = makeRequestGo o m (i + 1) r)
    ∧ (∀ i r, o i = .failure → i ≠ m - 1 →
        makeRequestGo o m i (r + 1) = makeRequestGo o m (i + 1) r)
    ∧ (∀ r, 0 < m → o (m - 1) = .failure →
        makeRequestGo o m (m - 1) (r + 1) = .configError)
    ∧ (0 < m → o (m - 1) = .timeout →
        makeRequestGo o m (m - 1) 1 = .noneReturn)
    ∧ ((∀ i, i < m → o i = .timeout) →
        KeaDHCPApi._make_request o m = .noneReturn) := by
  refine ⟨?_, ?_, ?_, ?_, ?_, ?_, ?_⟩
  · intro o' h
    exact makeRequestGo_congr o o' m h m 0 (by omega)
  · exact attemptsGo_le o m m 0
  · intro i r ht
    conv_lhs => unfold makeRequestGo
    rw [ht]
  · intro i r hf hne
    conv_lhs => unfold makeRequestGo
    rw [hf]
    dsimp only
    rw [if_neg hne]
  · intro r hm hf
    unfold makeRequestGo
    rw [hf]
    dsimp only
    rw [if_pos rfl]
  · intro hm ht
    unfold makeRequestGo
    rw [ht]
    rfl
  · intro h
    exact makeRequestGo_all_timeout o m h m 0 (by omega)

theorem kea_make_request_retry_contract_witness :
    makeRequestGo (fun _ => ReqOutcome.failure) 2 (2 - 1) (0 + 1) = KeaResult.configError :=
  (kea_make_request_retry_contract (fun _ => ReqOutcome.failure) 2).2.2.2.2.1 0
    (by decide) rfl

/-! ## Node lookup (claims C2, C3) -/

theorem lookupByUuid_error_eq {db : DB} {u : Option String} {e : LookupErr}
    (h : lookupByUuid db u = .error e) : e = .notFound := by
  unfold lookupByUuid at h
  cases u with
  | none => simp at h
  | some s =>
    dsimp only at h
    cases hg : get_by_uuid db s with
    | none =>
      rw [hg] at h
      injection h with h
      exact h.symm
    | some n =>
      rw [hg] at h
      simp at h

theorem lookupByMacs_error_eq {db : DB} {macs : List String} {u : Option String}
    {node : Option Node} {e : LookupErr}
    (h : lookupByMacs db macs u node = .error e) : e = .notFound := by
  unfold lookupByMacs at h
  by_cases hm : macs.isEmpty
  · rw [if_pos hm] at h; simp at h
  · rw [if_neg hm] at h
    cases hg : get_by_port_addresses db macs with
    | none => rw [hg] at h; simp at h
    | some n =>
      rw [hg] at h
      cases u with
      | none => simp at h
      | some s =>
        dsimp only at h
        by_cases hne : n.uuid ≠ s
        · rw [if_pos hne] at h
          injection h with h
          exact h.symm
        · rw [if_neg hne] at h
          simp at h

theorem checkProvisionState_error_eq {node : Option Node} {e : LookupErr}
    (h : checkProvisionState node = .error e) : e = .notFound := by
  unfold checkProvisionState at h
  cases node with
  | none => simp at h
  | some n =>
    dsimp only at h
    by_cases hp : n.provisionState ≠ INSPECTWAIT
    · rw [if_pos hp] at h
      injection h with h
      exact h.symm
    · rw [if_neg hp] at h
      simp at h

theorem lookupPreBmc_error_eq {db : DB} {macs : List String} {u : Option String}
    {e : LookupErr} (h : lookupPreBmc db macs u = .error e) : e = .notFound := by
  unfold lookupPreBmc at h
  rcases except_bind_error h with h1 | ⟨n1, h1, h2⟩
  · exact lookupByUuid_error_eq h1
  · rcases except_bind_error h2 with h3 | ⟨n2, h3, h4⟩
    · exact lookupByMacs_error_eq h3
    · exact checkProvisionState_error_eq h4

theorem mem_nodesByBmc {db : DB} {bmcs : List String} {u : String}
    (h : u ∈ nodesByBmc db bmcs) : ∃ n, n ∈ db.nodes ∧ n.uuid = u := by
  unfold nodesByBmc at h
  rw [List.mem_dedup] at h
  rcases List.mem_map.mp h with ⟨n, hn, hu⟩
  exact ⟨n, (List.mem_filter.mp (List.mem_filter.mp hn).1).1, hu⟩

theorem get_by_uuid_of_mem {db : DB} {u : String}
    (h : ∃ n, n ∈ db.nodes ∧ n.uuid = u) : ∃ n, get_by_uuid db u = some n := by
  rcases h with ⟨n, hn, hu⟩
  unfold get_by_uuid
  have : (db.nodes.find? (fun n => n.uuid == u)).isSome := by
    rw [List.find?_isSome]
    exact ⟨n, hn, by simp [hu]⟩
  exact Option.isSome_iff_exists.mp this

theorem lookupByBmc_error_eq {db : DB} {bmcs : List String} {node : Option Node}
    {e : LookupErr} (h : lookupByBmc db bmcs node = .error e) : e = .notFound := by
  unfold lookupByBmc at h
  by_cases hb : bmcs.isEmpty
  · rw [if_pos hb] at h; simp at h
  · rw [if_neg hb] at h
    cases node with
    | some n =>
      dsimp only at h
      by_cases hc : ¬(nodesByBmc db bmcs).isEmpty ∧ ¬(nodesByBmc db bmcs).contains n.uuid
      · rw [if_pos hc] at h
        injection h with h
        exact h.symm
      · rw [if_neg hc] at h
        simp at h
    | none =>
      dsimp only at h
      cases hby : nodesByBmc db bmcs with
      | nil => rw [hby] at h; simp at h
      | cons u rest =>
        cases rest with
        | nil =>
          rw [hby] at h
          dsimp only at h
          have hu : u ∈ nodesByBmc db bmcs := by rw [hby]; exact List.mem_cons_self u []
          rcases get_by_uuid_of_mem (mem_nodesByBmc hu) with ⟨n, hn⟩
          rw [hn] at h
          simp at h
        | cons u2 rest2 =>
          rw [hby] at h
          injection h with h
          exact h.symm

/-- Claim C2: for every database snapshot and every input, when `lookup_node`
fails it fails with the generic argument-free `NotFound`; in particular the
bare re-raise of the record-specific NotFound in the BMC fetch branch is
unreachable over a consistent snapshot, because the fetched uuid comes from
the node listing itself. -/
theorem lookup_node_generic_notFound (db : DB) (macs bmcs : List String)
    (u : Option String) (e : LookupErr)
    (h : lookup_node db macs bmcs u = .error e) : e = .notFound := by
  unfold lookup_node at h
  rcases except_bind_error h with h1 | ⟨n1, h1, h2⟩
  · exact lookupPreBmc_error_eq h1
  · rcases except_bind_error h2 with h3 | ⟨n2, h3, h4⟩
    · exact lookupByBmc_error_eq h3
    · cases n2 with
      | some n => simp at h4
      | none =>
        injection h4 with h4
        exact h4.symm

theorem lookup_node_generic_notFound_witness :
    lookup_node ⟨[], []⟩ [] [] (some "missing-uuid") = .error LookupErr.notFound
    ∧ LookupErr.notFound = LookupErr.notFound :=
  ⟨rfl, lookup_node_generic_notFound ⟨[], []⟩ [] [] (some "missing-uuid")
    LookupErr.notFound rfl⟩

theorem lookupByBmc_no_candidates {db : DB} {bmcs : List String}
    (hby : nodesByBmc db bmcs = []) (node : Option Node) :
    lookupByBmc db bmcs node = .ok node := by
  unfold lookupByBmc
  by_cases hb : bmcs.isEmpty
  · rw [if_pos hb]
  · rw [if_neg hb]
    cases node with
    | some n =>
      dsimp only
      rw [if_neg]
      intro hc
      exact hc.1 (by simp [hby])
    | none =>
      dsimp only
      rw [hby]

/-- Claim C3: in the BMC branch of `lookup_node`, a record resolved by the
uuid/MAC phases conflicts with a non-empty candidate set excluding it
(generic NotFound); with no record resolved, a singleton candidate set is
fetched and returned, more than one candidate is ambiguous (generic NotFound),
and an empty candidate set leaves the result exactly what it would have been
without BMC addresses. -/
theorem lookup_node_bmc_branch (db : DB) (macs bmcs : List String) (u : Option String) :
    (∀ n : Node, bmcs ≠ [] →
        lookupPreBmc db macs u = .ok (some n) →
        nodesByBmc db bmcs ≠ [] →
        n.uuid ∉ nodesByBmc db bmcs →
        lookup_node db macs bmcs u = .error LookupErr.notFound)
    ∧ (∀ u' : String, bmcs ≠ [] →
        lookupPreBmc db macs u = .ok none →
        nodesByBmc db bmcs = [u'] →
        ∃ n', get_by_uuid db u' = some n' ∧ lookup_node db macs bmcs u = .ok n')
    ∧ (bmcs ≠ [] →
        lookupPreBmc db macs u = .ok none →
        2 ≤ (nodesByBmc db bmcs).length →
        lookup_node db macs bmcs u = .error LookupErr.notFound)
    ∧ (nodesByBmc db bmcs = [] →
        lookup_node db macs bmcs u = lookup_node db macs [] u) := by
  refine ⟨?_, ?_, ?_, ?_⟩
  · intro n hbne hpre hne hnotmem
    unfold lookup_node
    rw [except_bind_of_ok hpre]
    have hbmc : lookupByBmc db bmcs (some n) = .error LookupErr.notFound := by
      unfold lookupByBmc
      rw [if_neg (by simp [List.isEmpty_iff, hbne])]
      dsimp only
      rw [if_pos ⟨by simp [List.isEmpty_iff, hne], by simpa using hnotmem⟩]
    rw [except_bind_of_error hbmc]
  · intro u' hbne hpre hby
    have hu : u' ∈ nodesByBmc db bmcs := by
      rw [hby]; exact List.mem_cons_self u' []
    rcases get_by_uuid_of_mem (mem_nodesByBmc hu) with ⟨n', hn'⟩
    refine ⟨n', hn', ?_⟩
    unfold lookup_node
    rw [except_bind_of_ok hpre]
    have hbmc : lookupByBmc db bmcs none = .ok (some n') := by
      unfold lookupByBmc
      rw [if_neg (by simp [List.isEmpty_iff, hbne])]
      dsimp only
      rw [hby]
      dsimp only
      rw [hn']
    rw [except_bind_of_ok hbmc]
  · intro hbne hpre hlen
    rcases hby : nodesByBmc db bmcs with _ | ⟨a, _ | ⟨b, t⟩⟩
    · rw [hby] at hlen; simp at hlen
    · rw [hby] at hlen; simp at hlen
    · unfold lookup_node
      rw [except_bind_of_ok hpre]
      have hbmc : lookupByBmc db bmcs none = .error LookupErr.notFound := by
        unfold lookupByBmc
        rw [if_neg (by simp [List.isEmpty_iff, hbne])]
        dsimp only
        rw [hby]
      rw [except_bind_of_error hbmc]
  · intro hby
    unfold lookup_node
    cases hpre : lookupPreBmc db macs u with
    | error e => rfl
    | ok node =>
      simp only [Bind.bind, Except.bind]
      rw [lookupByBmc_no_candidates hby node]
      have hnil : lookupByBmc db [] node = .ok node := rfl
      rw [hnil]

theorem lookup_node_bmc_branch_witness :
    get_by_uuid dbOneNode "uuid-1" = some nodeAwaiting
    ∧ lookup_node dbOneNode [] ["192.0.2.1"] none = .ok nodeAwaiting := by
  obtain ⟨-, hb, -, -⟩ := lookup_node_bmc_branch dbOneNode [] ["192.0.2.1"] none
  obtain ⟨n', hget, hres⟩ := hb "uuid-1" (by decide) rfl (by decide)
  have hn : n' = nodeAwaiting := by
    have hs : some n' = some nodeAwaiting := by rw [← hget]; rfl
    injection hs
  subst hn
  exact ⟨hget, hres⟩

/-! ## BMC address cache (claim C6) -/

theorem mem_bmcFieldAddresses (env : BmcEnv) (name address a : String) :
    a ∈ bmcFieldAddresses env name address ↔
      strEndsWith name "_address" = true
      ∧ ¬(strStartsWith name "ipmi_" = true ∧ env.isBridgingEnabled = true)
      ∧ ∃ ips, env.getaddrinfo (normalizedAddr env address) = some ips
          ∧ ((a ∈ ips ∧ env.isLoopback a = false)
             ∨ (a = normalizedAddr env address
                ∧ env.isLoopback (normalizedAddr env address) = false)) := by
  unfold bmcFieldAddresses
  by_cases h1 : strEndsWith name "_address"
  · rw [if_neg (by simp [h1])]
    by_cases h2 : strStartsWith name "ipmi_" && env.isBridgingEnabled
    · rw [if_pos h2]
      rw [Bool.and_eq_true] at h2
      simp [h2]
    · rw [if_neg h2]
      rw [Bool.and_eq_true] at h2
      dsimp only
      cases hg : env.getaddrinfo (normalizedAddr env address) with
      | none => simp [hg, h1, h2]
      | some ips =>
        by_cases h3 : env.isLoopback (normalizedAddr env address)
        · simp [hg, h1, h2, h3, List.mem_append, List.mem_filter, Bool.not_eq_true']
        · simp [hg, h1, h2, h3, List.mem_append, List.mem_filter, Bool.not_eq_true']
  · rw [if_pos (by simp [h1])]
    simp [h1]

/-- Claim C6 (amended): the cached set contains exactly, for every
`driver_info` field whose name ends in `_address` (skipping `ipmi_*` fields
under bridging and skipping unresolvable addresses), the non-loopback resolved
IP addresses *together with* the normalised configured address string itself
when it is not a loopback; the set is stored in the cache field when
non-empty and the cache field is cleared when it is empty. -/
theorem cache_lookup_addresses_spec (env : BmcEnv) (node : Node) :
    (∀ a, a ∈ _get_bmc_addresses env node.driverInfo ↔
        ∃ nv, nv ∈ node.driverInfo
          ∧ strEndsWith nv.1 "_address" = true
          ∧ ¬(strStartsWith nv.1 "ipmi_" = true ∧ env.isBridgingEnabled = true)
          ∧ ∃ ips, env.getaddrinfo (normalizedAddr env nv.2) = some ips
              ∧ ((a ∈ ips ∧ env.isLoopback a = false)
                 ∨ (a = normalizedAddr env nv.2
                    ∧ env.isLoopback (normalizedAddr env nv.2) = false)))
    ∧ (_get_bmc_addresses env node.driverInfo ≠ [] →
        cache_lookup_addresses env node
          = { node with lookupCache := some (_get_bmc_addresses env node.driverInfo) })
    ∧ (_get_bmc_addresses env node.driverInfo = [] →
        cache_lookup_addresses env node = clear_lookup_addresses node) := by
  refine ⟨?_, ?_, ?_⟩
  · intro a
    unfold _get_bmc_addresses
    rw [List.mem_dedup, List.mem_flatten]
    constructor
    · rintro ⟨l, hl, hal⟩
      rcases List.mem_map.mp hl with ⟨nv, hnv, rfl⟩
      exact ⟨nv, hnv, (mem_bmcFieldAddresses env nv.1 nv.2 a).mp hal⟩
    · rintro ⟨nv, hnv, hrest⟩
      exact ⟨bmcFieldAddresses env nv.1 nv.2, List.mem_map.mpr ⟨nv, hnv, rfl⟩,
        (mem_bmcFieldAddresses env nv.1 nv.2 a).mpr hrest⟩
  · intro h
    simp [cache_lookup_addresses, List.isEmpty_eq_false, h]
  · intro h
    simp [cache_lookup_addresses, h, clear_lookup_addresses]

/-- Claim C6 counterexample: for a resolvable BMC hostname the cache stores
the configured hostname string in addition to the resolved IP address, so the
cached contents are not exactly the set of IP addresses obtained by
resolution (`claimedBmcAddresses`, the set the claim describes). -/
theorem cache_lookup_addresses_counterexample :
    (cache_lookup_addresses envResolves nodeRedfish).lookupCache
        = some ["203.0.113.5", "bmc.example.com"]
    ∧ claimedBmcAddresses envResolves nodeRedfish.driverInfo = ["203.0.113.5"]
    ∧ "bmc.example.com" ∉ claimedBmcAddresses envResolves nodeRedfish.driverInfo :=
  ⟨rfl, rfl, by decide⟩

theorem cache_lookup_addresses_spec_witness :
    cache_lookup_addresses envResolves nodeRedfish
      = { nodeRedfish with
          lookupCache := some (_get_bmc_addresses envResolves nodeRedfish.driverInfo) } :=
  (cache_lookup_addresses_spec envResolves nodeRedfish).2.1 (by decide)

/-! ## Port creation (claim C10) -/

theorem portCreate_ok {db : List PortRec} {q : PortRec} {db' : List PortRec}
    (h : portCreate db q = .ok db') :
    db' = db ++ [q] ∧ db.any (fun r => r.address == q.address) = false := by
  unfold portCreate at h
  by_cases ha : db.any (fun r => r.address == q.address)
  · rw [if_pos ha] at h
    simp at h
  · rw [if_neg ha] at h
    injection h with h
    exact ⟨h.symm, by simpa using ha⟩

theorem portCreate_error {db : List PortRec} {q : PortRec}
    (h : portCreate db q = .error ()) :
    db.any (fun r => r.address == q.address) = true := by
  unfold portCreate at h
  by_cases ha : db.any (fun r => r.address == q.address)
  · exact ha
  · rw [if_neg ha] at h
    simp at h

theorem create_ports_mono (f : String → Bool) (nid : Nat) :
    ∀ macs db (p : PortRec), p ∈ db → p ∈ create_ports_if_not_exist f nid db macs := by
  intro macs
  induction macs with
  | nil => intro db p h; exact h
  | cons mac rest ih =>
    intro db p h
    unfold create_ports_if_not_exist
    by_cases hv : f mac
    · rw [if_neg (by simp [hv])]
      cases hc : portCreate db ⟨mac, nid⟩ with
      | ok db' =>
        rcases portCreate_ok hc with ⟨rfl, -⟩
        exact ih _ p (List.mem_append.mpr (Or.inl h))
      | error e =>
        cases e
        exact ih db p h
    · rw [if_pos (by simp [hv])]
      exact ih db p h

theorem create_ports_covers (f : String → Bool) (nid : Nat) :
    ∀ macs db mac, mac ∈ macs → f mac = true →
      ∃ p, p ∈ create_ports_if_not_exist f nid db macs ∧ p.address = mac := by
  intro macs
  induction macs with
  | nil =>
    intro db mac h
    exact absurd h (List.not_mem_nil mac)
  | cons m rest ih =>
    intro db mac hmem hv
    unfold create_ports_if_not_exist
    rcases List.mem_cons.mp hmem with rfl | hmem'
    · rw [if_neg (by simp [hv])]
      cases hc : portCreate db ⟨mac, nid⟩ with
      | ok db' =>
        rcases portCreate_ok hc with ⟨rfl, -⟩
        refine ⟨⟨mac, nid⟩, create_ports_mono f nid rest _ _ ?_, rfl⟩
        exact List.mem_append.mpr (Or.inr (List.mem_singleton.mpr rfl))
      | error e =>
        cases e
        rcases List.any_eq_true.mp (portCreate_error hc) with ⟨q, hq, hqa⟩
        exact ⟨q, create_ports_mono f nid rest db q hq, by simpa using hqa⟩
    · by_cases hv' : f m
      · rw [if_neg (by simp [hv'])]
        cases hc : portCreate db ⟨m, nid⟩ with
        | ok db' => exact ih _ mac hmem' hv
        | error e =>
          cases e
          exact ih db mac hmem' hv
      · rw [if_pos (by simp [hv'])]
        exact ih db mac hmem' hv

theorem create_ports_noop (f : String → Bool) (nid : Nat) :
    ∀ macs db, (∀ mac, mac ∈ macs → f mac = true → ∃ p, p ∈ db ∧ p.address = mac) →
      create_ports_if_not_exist f nid db macs = db := by
  intro macs
  induction macs with
  | nil => intro db _; rfl
  | cons m rest ih =>
    intro db h
    unfold create_ports_if_not_exist
    by_cases hv : f m
    · rw [if_neg (by simp [hv])]
      rcases h m (List.mem_cons_self m rest) hv with ⟨p, hp, hpa⟩
      have hc : portCreate db ⟨m, nid⟩ = .error () := by
        unfold portCreate
        rw [if_pos (List.any_eq_true.mpr ⟨p, hp, by simp [hpa]⟩)]
      rw [hc]
      exact ih db (fun mac hm => h mac (List.mem_cons_of_mem m hm))
    · rw [if_pos (by simp [hv])]
      exact ih db (fun mac hm => h mac (List.mem_cons_of_mem m hm))

theorem create_ports_nodup (f : String → Bool) (nid : Nat) :
    ∀ macs db, (db.map PortRec.address).Nodup →
      ((create_ports_if_not_exist f nid db macs).map PortRec.address).Nodup := by
  intro macs
  induction macs with
  | nil => intro db h; exact h
  | cons m rest ih =>
    intro db h
    unfold create_ports_if_not_exist
    by_cases hv : f m
    · rw [if_neg (by simp [hv])]
      cases hc : portCreate db ⟨m, nid⟩ with
      | ok db' =>
        rcases portCreate_ok hc with ⟨rfl, hna⟩
        apply ih
        rw [List.map_append, List.nodup_append_comm]
        rw [show (([⟨m, nid⟩] : List PortRec).map PortRec.address) = [m] from rfl]
        rw [List.singleton_append, List.nodup_cons]
        refine ⟨?_, h⟩
        intro hmem
        rcases List.mem_map.mp hmem with ⟨q, hq, hqa⟩
        have : db.any (fun r => r.address == (⟨m, nid⟩ : PortRec).address) = true :=
          List.any_eq_true.mpr ⟨q, hq, by simp [hqa]⟩
        rw [this] at hna
        exact absurd hna (by simp)
      | error e =>
        cases e
        exact ih db h
    · rw [if_pos (by simp [hv])]
      exact ih db h

/-- Claim C10: `create_ports_if_not_exist` is total and idempotent over its
MAC list: invalid entries are skipped without error, an already-known address
makes the creation error be swallowed while processing continues, a second
identical call changes nothing, pre-existing ports are preserved, and no
duplicate addresses are ever created. -/
theorem create_ports_if_not_exist_spec (f : String → Bool) (nid : Nat)
    (db : List PortRec) (macs : List String) :
    create_ports_if_not_exist f nid (create_ports_if_not_exist f nid db macs) macs
        = create_ports_if_not_exist f nid db macs
    ∧ (∀ mac, f mac = false →
        create_ports_if_not_exist f nid db (mac :: macs)
          = create_ports_if_not_exist f nid db macs)
    ∧ (∀ p, p ∈ db → p ∈ create_ports_if_not_exist f nid db macs)
    ∧ ((db.map PortRec.address).Nodup →
        ((create_ports_if_not_exist f nid db macs).map PortRec.address).Nodup) := by
  refine ⟨?_, ?_, fun p => create_ports_mono f nid macs db p,
    fun h => create_ports_nodup f nid macs db h⟩
  · apply create_ports_noop
    intro mac hm hv
    exact create_ports_covers f nid macs db mac hm hv
  · intro mac hmv
    conv_lhs => unfold create_ports_if_not_exist
    rw [if_pos (by simp [hmv])]

theorem create_ports_if_not_exist_spec_witness :
    create_ports_if_not_exist sampleValidMac 7 []
        ("ZZ-NOT-A-MAC" :: ["52:54:00:12:34:56"])
      = create_ports_if_not_exist sampleValidMac 7 [] ["52:54:00:12:34:56"] :=
  (create_ports_if_not_exist_spec sampleValidMac 7 [] ["52:54:00:12:34:56"]).2.1
    "ZZ-NOT-A-MAC" (by decide)
